import Mathlib

unseal Rat.mul Rat.inv Rat.add Rat.sub

/-!
Verification of the time-series pipeline of `sweden.py`.

The script fetches per-day COVID-19 counts for three metrics, smooths each
series with a centered 7-day rolling mean, splits the smoothed series into a
stable and an unstable part at a cutoff date, fits an exponential curve to a
window of the stable part, and finally normalizes and time-shifts the curves
for an overlay plot.

The embedding below models the data frame as a date index (days since epoch,
as integers) together with one list of optional rationals per (metric, column)
pair; a `none` entry models a missing value (pandas `NaN`).  Counts and means
are modelled over `ℚ`.  Pandas library calls are embedded by their documented
semantics:

* `Series.rolling (W, center = True).mean ()` with the default
  `min_periods = W` centers the window with offset `(W-1)/2` (integer
  division), yielding at position `i` the mean of the positions
  `[i - W/2, i + (W-1)/2]` — for an even window the extra element on the
  left — when that whole window lies inside the series and every entry in
  it is defined, and `NaN` otherwise.
* label slicing `df.loc[a:b]` is inclusive at both endpoints;
* assigning a slice to a new column aligns on the index and fills the rest
  with `NaN`;
* `Series.max ()` skips `NaN` entries and is `NaN` when none are defined;
* `Series.shift (-k)` moves the value at position `i + k` to position `i`
  and leaves the last `k` positions `NaN`;
* the `DataFrame` constructor keeps every row as given, duplicate index
  labels included.
-/

namespace Covid

/-- `UNSTABLE_DAYS` of `sweden.py`: the last 10 days of data are unstable. -/
def UNSTABLE_DAYS : ℤ := 10

/-- `ROLL_DAYS` of `sweden.py`: size of the rolling-average window. -/
def ROLL_DAYS : ℕ := 7

/-- `LATENCY_DAYS = 5.1` of `sweden.py`. -/
def LATENCY_DAYS : ℚ := 51 / 10

/-- `INFECTIOUS_DAYS = 5` of `sweden.py`. -/
def INFECTIOUS_DAYS : ℚ := 5

/-- `MEAN_GENERATION_INTERVAL = (LATENCY_DAYS - 1) + (INFECTIOUS_DAYS / 4)`. -/
def MEAN_GENERATION_INTERVAL : ℚ := (LATENCY_DAYS - 1) + (INFECTIOUS_DAYS / 4)

/-- `HUMP_DAY = '2020-03-24'`, as days since 1970-01-01. -/
def HUMP_DAY : ℤ := 18345

/-- The three metrics of the `PLOTS` table. -/
inductive Field where
  | pos
  | icu
  | died
deriving DecidableEq

/-- The five per-metric columns of the wide data frame. -/
inductive Col where
  | raw
  | roll
  | stable
  | unstable
  | fit
deriving DecidableEq

/-- The per-metric `offset` entries of the `PLOTS` table: assumed days from
infection to the observed event. -/
def offset : Field → ℕ
  | .pos => 7
  | .icu => 11
  | .died => 17

/-- The wide data frame: a date index plus one value list per
(metric, column); `none` models `NaN`.  Columns not yet assigned are
all-`none`. -/
structure Frame where
  dates : List ℤ
  data : Field → Col → List (Option ℚ)

/-- Sum of a list of optional values; `none` as soon as any entry is `none`
(pandas propagates `NaN` through a full-window rolling sum). -/
def sumOpts : List (Option ℚ) → Option ℚ
  | [] => some 0
  | none :: _ => none
  | some v :: rest => (sumOpts rest).map (fun s => v + s)

/-- `Series.rolling (W, center = True).mean ()` with `min_periods = W`:
pandas centers with offset `(W - 1) / 2`, so position `i` holds the mean
over positions `[i - W / 2, i + (W - 1) / 2]` — for an even window the
extra element lies on the left — when that window lies inside the series
(and all of it is defined), else `none`.  Pandas rejects `W = 0`, which no
caller uses; the guard keeps the definition total. -/
def rollingMeanO (W : ℕ) (xs : List (Option ℚ)) : List (Option ℚ) :=
  (List.range xs.length).map (fun i =>
    if 0 < W ∧ W / 2 ≤ i ∧ i + (W - 1) / 2 < xs.length then
      (sumOpts ((xs.drop (i - W / 2)).take W)).map (fun s => s / (W : ℚ))
    else none)

/-- `end_date = df.index[-1] - pd.Timedelta (UNSTABLE_DAYS, 'days')`. -/
def cutoffDate (dates : List ℤ) : ℤ := dates.getLastD 0 - UNSTABLE_DAYS

/-- `df.loc[:end_date, c]` re-aligned on the full index: keep entries whose
date is at most `cut` (label slicing is inclusive), `NaN` elsewhere. -/
def maskLE (dates : List ℤ) (cut : ℤ) (xs : List (Option ℚ)) : List (Option ℚ) :=
  (List.range dates.length).map (fun i =>
    if dates.getD i 0 ≤ cut then xs.getD i none else none)

/-- `df.loc[end_date:, c]` re-aligned on the full index: keep entries whose
date is at least `cut` (label slicing is inclusive), `NaN` elsewhere. -/
def maskGE (dates : List ℤ) (cut : ℤ) (xs : List (Option ℚ)) : List (Option ℚ) :=
  (List.range dates.length).map (fun i =>
    if cut ≤ dates.getD i 0 then xs.getD i none else none)

/-- The derivation loop of `sweden.py` lines 165-168: per metric, assign the
`roll`, `stable` and `unstable` columns; `raw` and `fit` are untouched. -/
def addDerived (df : Frame) : Frame where
  dates := df.dates
  data := fun f c =>
    match c with
    | .raw => df.data f .raw
    | .roll => rollingMeanO ROLL_DAYS (df.data f .raw)
    | .stable =>
        maskLE df.dates (cutoffDate df.dates) (rollingMeanO ROLL_DAYS (df.data f .raw))
    | .unstable =>
        maskGE df.dates (cutoffDate df.dates) (rollingMeanO ROLL_DAYS (df.data f .raw))
    | .fit => df.data f .fit

/-- `start_date = pd.to_datetime (HUMP_DAY) + offset` of `plot`. -/
def fit_start (f : Field) : ℤ := HUMP_DAY + (offset f : ℤ)

/-- The `(xdata, ydata)` pairs handed to `scipy.optimize.curve_fit` by
`fit_data`: `x = (df[start:end].index - start).days` and
`y = df.loc[start:end, (field, 'stable')]`, both slices inclusive. -/
def fit_xy (df : Frame) (f : Field) : List (ℤ × Option ℚ) :=
  (List.range df.dates.length).filterMap (fun i =>
    if fit_start f ≤ df.dates.getD i 0 ∧ df.dates.getD i 0 ≤ cutoffDate df.dates then
      some (df.dates.getD i 0 - fit_start f, (df.data f .stable).getD i none)
    else none)

/-- The write-back of `fit_data`:
`df.loc[start_date:, (field, 'fit')] = f ((df[start_date:].index - start_date).days, *popt)`.
The numeric optimizer and the evaluated exponential are external
(`scipy`, `np.exp`); `g` stands for the fitted model evaluated at a whole-day
offset, which depends only on the optimizer result, not on the frame. -/
def fit_write (df : Frame) (fld : Field) (start : ℤ) (g : ℤ → ℚ) : Frame where
  dates := df.dates
  data := fun f c =>
    if f = fld ∧ c = Col.fit then
      (List.range df.dates.length).map (fun i =>
        if start ≤ df.dates.getD i 0 then some (g (df.dates.getD i 0 - start))
        else (df.data f Col.fit).getD i none)
    else df.data f c

/-- `df[(field, 'roll')].max ()`: maximum of the defined entries, `none`
when no entry is defined (pandas skips `NaN`). -/
def peakO (xs : List (Option ℚ)) : Option ℚ :=
  xs.foldr (fun v acc =>
    match v, acc with
    | some w, some m => some (max w m)
    | some w, none => some w
    | none, a => a) none

/-- `df[col] / col_max`, elementwise.  A `NaN` operand yields `NaN`; a zero
divisor also yields `none`, which models the `0.0 / 0.0 = NaN` case (the
only one arising here: raw counts are non-negative, so a zero peak forces
every defined rolling value to be zero). -/
def divCol (xs : List (Option ℚ)) (p : Option ℚ) : List (Option ℚ) :=
  xs.map (fun v =>
    match v, p with
    | some w, some m => if m = 0 then none else some (w / m)
    | _, _ => none)

/-- Elementwise multiplication by an optional scalar (the re-scaling half of
the round-trip stated by the spec). -/
def mulCol (xs : List (Option ℚ)) (p : Option ℚ) : List (Option ℚ) :=
  xs.map (fun v =>
    match v, p with
    | some w, some m => some (w * m)
    | _, _ => none)

/-- `Series.shift (-k)`: position `i` takes the value of position `i + k`;
the last `k` positions become `NaN`; the index is unchanged. -/
def shiftUp (k : ℕ) (xs : List (Option ℚ)) : List (Option ℚ) :=
  xs.drop k ++ List.replicate (min k xs.length) none

/-- `Series.shift (k)` for `k ≥ 0`: the forward shift of the round-trip
stated by the spec. -/
def shiftDown (k : ℕ) (xs : List (Option ℚ)) : List (Option ℚ) :=
  List.replicate (min k xs.length) none ++ xs.take (xs.length - k)

/-- The `align` operation of the spec as implemented by `sweden.py`
lines 292-293: divide by the peak, then shift backward in time by `k`. -/
def align (xs : List (Option ℚ)) (p : Option ℚ) (k : ℕ) : List (Option ℚ) :=
  shiftUp k (divCol xs p)

/-- One iteration of the overlay loop (lines 287-293) for metric `fld`:
overwrite its `stable` and `unstable` columns with the aligned versions,
using the peak of that metric's unnormalized `roll` column. -/
def overlayStep (df : Frame) (fld : Field) (k : ℕ) : Frame where
  dates := df.dates
  data := fun f c =>
    if f = fld ∧ (c = Col.stable ∨ c = Col.unstable) then
      align (df.data f c) (peakO (df.data fld Col.roll)) k
    else df.data f c

/-- The whole overlay loop: one `overlayStep` per metric, in `PLOTS` order,
each with its own `offset`. -/
def overlayStage (df : Frame) : Frame :=
  overlayStep (overlayStep (overlayStep df .pos (offset .pos)) .icu (offset .icu))
    .died (offset .died)

/-- One JSON record: a date (milliseconds-since-epoch converted to a day
number) and the three metric counts extracted by the `itemgetter`. -/
structure Rec where
  date : ℤ
  pos : ℚ
  icu : ℚ
  died : ℚ
deriving DecidableEq

/-- The value the `itemgetter` extracts from a record for a metric. -/
def rawValue (f : Field) (r : Rec) : ℚ :=
  match f with
  | .pos => r.pos
  | .icu => r.icu
  | .died => r.died

/-- The `pd.DataFrame (data, index, columns)` construction of lines 152-161:
one row per record, in input order; only the `raw` columns are populated. -/
def ingest (recs : List Rec) : Frame where
  dates := recs.map (fun r => r.date)
  data := fun f c =>
    match c with
    | .raw => recs.map (fun r => some (rawValue f r))
    | _ => List.replicate recs.length none

/-- The estimated reproduction number printed in the legend:
`np.exp (popt[1] * MEAN_GENERATION_INTERVAL)`. -/
noncomputable def Restimate (b : ℝ) : ℝ :=
  Real.exp (b * (MEAN_GENERATION_INTERVAL : ℝ))

/-- A concrete gap-free fortnight of records around `HUMP_DAY`, constant
count 7 for every metric; used to instantiate the theorems below. -/
def sampleRecs : List Rec :=
  (List.range 14).map (fun i => ⟨18349 + (i : ℤ), 7, 7, 7⟩)

/-! Helper lemmas about list indexing and the column operations. -/

theorem getD_range_map {α : Type} (g : ℕ → α) (n i : ℕ) (d : α) (h : i < n) :
    (((List.range n).map g).getD i d) = g i := by
  rw [List.getD_eq_getElem?_getD, List.getElem?_map, List.getElem?_range h]
  rfl

theorem sumOpts_map_some (l : List ℚ) : sumOpts (l.map some) = some l.sum := by
  induction l with
  | nil => rfl
  | cons a t ih => simp [sumOpts, ih, List.sum_cons]

/-- Pointwise characterization of the centered rolling mean on a gap-free
series, any positive window. -/
theorem rollingMeanO_getD (W : ℕ) (xs : List ℚ) (i : ℕ) (hi : i < xs.length)
    (hW : 0 < W) :
    (rollingMeanO W (xs.map some)).getD i none =
      if W / 2 ≤ i ∧ i + (W - 1) / 2 < xs.length then
        some ((((xs.drop (i - W / 2)).take W).sum) / (W : ℚ))
      else none := by
  unfold rollingMeanO
  simp only [List.length_map]
  rw [getD_range_map _ _ _ _ hi]
  by_cases h : W / 2 ≤ i ∧ i + (W - 1) / 2 < xs.length
  · rw [if_pos ⟨hW, h.1, h.2⟩, if_pos h, ← List.map_drop, ← List.map_take,
      sumOpts_map_some]
    rfl
  · rw [if_neg (fun hc => h ⟨hc.2.1, hc.2.2⟩), if_neg h]

theorem length_rollingMeanO (W : ℕ) (xs : List (Option ℚ)) :
    (rollingMeanO W xs).length = xs.length := by
  simp [rollingMeanO]

theorem getD_map_nonePres (g : Option ℚ → Option ℚ) (hg : g none = none)
    (xs : List (Option ℚ)) (i : ℕ) :
    (xs.map g).getD i none = g (xs.getD i none) := by
  rw [List.getD_eq_getElem?_getD, List.getD_eq_getElem?_getD, List.getElem?_map]
  cases h : xs[i]? <;> simp [hg]

theorem getD_shiftUp (k : ℕ) (xs : List (Option ℚ)) (i : ℕ) :
    (shiftUp k xs).getD i none =
      if i + k < xs.length then xs.getD (i + k) none else none := by
  rw [shiftUp, List.getD_eq_getElem?_getD, List.getElem?_append, List.length_drop]
  by_cases h : i + k < xs.length
  · rw [if_pos h, if_pos (by omega), List.getElem?_drop, List.getD_eq_getElem?_getD,
      Nat.add_comm k i]
  · rw [if_neg h, if_neg (by omega), List.getElem?_replicate]
    split <;> rfl

theorem getD_shiftDown (k : ℕ) (xs : List (Option ℚ)) (i : ℕ) (hi : i < xs.length) :
    (shiftDown k xs).getD i none =
      if i < k then none else xs.getD (i - k) none := by
  rw [shiftDown, List.getD_eq_getElem?_getD, List.getElem?_append, List.length_replicate]
  by_cases h : i < min k xs.length
  · rw [if_pos h, List.getElem?_replicate, if_pos h, if_pos (by omega)]
    rfl
  · have hmin : min k xs.length = k := by omega
    rw [if_neg h, hmin, List.getElem?_take, if_pos (by omega), if_neg (by omega),
      List.getD_eq_getElem?_getD]

theorem length_divCol (xs : List (Option ℚ)) (p : Option ℚ) :
    (divCol xs p).length = xs.length := List.length_map _ _

theorem length_mulCol (xs : List (Option ℚ)) (p : Option ℚ) :
    (mulCol xs p).length = xs.length := List.length_map _ _

theorem length_shiftUp (k : ℕ) (xs : List (Option ℚ)) :
    (shiftUp k xs).length = xs.length := by
  simp [shiftUp]
  omega

theorem length_shiftDown (k : ℕ) (xs : List (Option ℚ)) :
    (shiftDown k xs).length = xs.length := by
  simp [shiftDown]
  omega

theorem length_align (xs : List (Option ℚ)) (p : Option ℚ) (k : ℕ) :
    (align xs p k).length = xs.length := by
  rw [align, length_shiftUp, length_divCol]

theorem getD_divCol (xs : List (Option ℚ)) (p : Option ℚ) (i : ℕ) :
    (divCol xs p).getD i none =
      match xs.getD i none, p with
      | some w, some m => if m = 0 then none else some (w / m)
      | _, _ => none := by
  rw [divCol, getD_map_nonePres]
  cases p <;> rfl

theorem getD_mulCol (xs : List (Option ℚ)) (p : Option ℚ) (i : ℕ) :
    (mulCol xs p).getD i none =
      match xs.getD i none, p with
      | some w, some m => some (w * m)
      | _, _ => none := by
  rw [mulCol, getD_map_nonePres]
  cases p <;> rfl

theorem getD_maskLE (dates : List ℤ) (cut : ℤ) (xs : List (Option ℚ)) (i : ℕ)
    (hi : i < dates.length) :
    (maskLE dates cut xs).getD i none =
      if dates.getD i 0 ≤ cut then xs.getD i none else none := by
  unfold maskLE
  rw [getD_range_map _ _ _ _ hi]

theorem getD_maskGE (dates : List ℤ) (cut : ℤ) (xs : List (Option ℚ)) (i : ℕ)
    (hi : i < dates.length) :
    (maskGE dates cut xs).getD i none =
      if cut ≤ dates.getD i 0 then xs.getD i none else none := by
  unfold maskGE
  rw [getD_range_map _ _ _ _ hi]

theorem length_maskLE (dates : List ℤ) (cut : ℤ) (xs : List (Option ℚ)) :
    (maskLE dates cut xs).length = dates.length := by
  simp [maskLE]

theorem length_maskGE (dates : List ℤ) (cut : ℤ) (xs : List (Option ℚ)) :
    (maskGE dates cut xs).length = dates.length := by
  simp [maskGE]

/-! Helper lemmas about the pipeline stages. -/

theorem addDerived_dates (df : Frame) : (addDerived df).dates = df.dates := rfl

theorem addDerived_raw (df : Frame) (f : Field) :
    (addDerived df).data f Col.raw = df.data f Col.raw := rfl

theorem addDerived_fit (df : Frame) (f : Field) :
    (addDerived df).data f Col.fit = df.data f Col.fit := rfl

theorem addDerived_roll (df : Frame) (f : Field) :
    (addDerived df).data f Col.roll = rollingMeanO ROLL_DAYS (df.data f Col.raw) := rfl

theorem addDerived_stable (df : Frame) (f : Field) :
    (addDerived df).data f Col.stable =
      maskLE df.dates (cutoffDate df.dates) (rollingMeanO ROLL_DAYS (df.data f Col.raw)) :=
  rfl

theorem addDerived_unstable (df : Frame) (f : Field) :
    (addDerived df).data f Col.unstable =
      maskGE df.dates (cutoffDate df.dates) (rollingMeanO ROLL_DAYS (df.data f Col.raw)) :=
  rfl

theorem fit_write_dates (df : Frame) (fld : Field) (s : ℤ) (g : ℤ → ℚ) :
    (fit_write df fld s g).dates = df.dates := rfl

theorem fit_write_data_ne (df : Frame) (fld : Field) (s : ℤ) (g : ℤ → ℚ)
    (f : Field) (c : Col) (h : f ≠ fld ∨ c ≠ Col.fit) :
    (fit_write df fld s g).data f c = df.data f c := by
  have hcond : ¬ (f = fld ∧ c = Col.fit) := by
    rcases h with h | h
    · exact fun hc => h hc.1
    · exact fun hc => h hc.2
  show (if f = fld ∧ c = Col.fit then _ else df.data f c) = df.data f c
  rw [if_neg hcond]

theorem overlayStep_dates (df : Frame) (fld : Field) (k : ℕ) :
    (overlayStep df fld k).dates = df.dates := rfl

theorem overlayStep_data_ne (df : Frame) (fld : Field) (k : ℕ) (f : Field) (c : Col)
    (h : f ≠ fld ∨ (c ≠ Col.stable ∧ c ≠ Col.unstable)) :
    (overlayStep df fld k).data f c = df.data f c := by
  have hcond : ¬ (f = fld ∧ (c = Col.stable ∨ c = Col.unstable)) := by
    rcases h with h | ⟨h1, h2⟩
    · exact fun hc => h hc.1
    · rintro ⟨-, hc | hc⟩
      · exact h1 hc
      · exact h2 hc
  show (if f = fld ∧ (c = Col.stable ∨ c = Col.unstable) then _ else df.data f c)
      = df.data f c
  rw [if_neg hcond]

theorem overlayStep_data_self (df : Frame) (fld : Field) (k : ℕ) (c : Col)
    (hc : c = Col.stable ∨ c = Col.unstable) :
    (overlayStep df fld k).data fld c =
      align (df.data fld c) (peakO (df.data fld Col.roll)) k := by
  show (if fld = fld ∧ (c = Col.stable ∨ c = Col.unstable) then
      align (df.data fld c) (peakO (df.data fld Col.roll)) k else _) = _
  rw [if_pos ⟨rfl, hc⟩]

theorem overlayStage_dates (df : Frame) : (overlayStage df).dates = df.dates := rfl

/-- Reading any metric's stable or unstable column after the whole overlay
loop gives that metric's own aligned column: the three steps do not interfere
with each other. -/
theorem overlayStage_data (df : Frame) (f : Field) (c : Col)
    (hc : c = Col.stable ∨ c = Col.unstable) :
    (overlayStage df).data f c =
      align (df.data f c) (peakO (df.data f Col.roll)) (offset f) := by
  cases f with
  | pos =>
      rw [overlayStage,
        overlayStep_data_ne _ _ _ _ _ (Or.inl (by decide)),
        overlayStep_data_ne _ _ _ _ _ (Or.inl (by decide)),
        overlayStep_data_self _ _ _ _ hc]
  | icu =>
      rw [overlayStage,
        overlayStep_data_ne _ _ _ _ _ (Or.inl (by decide)),
        overlayStep_data_self _ _ _ _ hc,
        overlayStep_data_ne _ _ _ _ _ (Or.inl (by decide)),
        overlayStep_data_ne _ _ _ _ _ (Or.inr (by decide))]
  | died =>
      rw [overlayStage,
        overlayStep_data_self _ _ _ _ hc,
        overlayStep_data_ne _ _ _ _ _ (Or.inl (by decide)),
        overlayStep_data_ne _ _ _ _ _ (Or.inl (by decide)),
        overlayStep_data_ne _ _ _ _ _ (Or.inr (by decide)),
        overlayStep_data_ne _ _ _ _ _ (Or.inr (by decide))]

/-! Claim theorems. -/

/-- C1: for every metric series and every positive odd smoothing window
`W = 2 * h + 1` (so `h = W / 2` rounded down), the smoothed value at
position `i` — date `d` on a gap-free daily index — is the mean of the raw
values over the closed window of positions `[i - h, i + h]` (dates
`[d - h, d + h]`); a position whose window would leave the available data is
undefined, neither zero-filled nor clamped, and on a gap-free input of
length at least `W` the undefined positions are exactly the `h` first and
the `h` last ones. -/
theorem smooth_centered_mean (W h : ℕ) (xs : List ℚ) (hW : W = 2 * h + 1)
    (hlen : W ≤ xs.length) :
    (rollingMeanO W (xs.map some)).length = xs.length ∧
    h + h < xs.length ∧
    (∀ i, i < xs.length →
      (rollingMeanO W (xs.map some)).getD i none =
        if h ≤ i ∧ i + h < xs.length then
          some ((((xs.drop (i - h)).take W).sum) / (W : ℚ))
        else none) ∧
    (∀ i, i < xs.length →
      ((rollingMeanO W (xs.map some)).getD i none = none ↔
        (i < h ∨ xs.length ≤ i + h))) := by
  have e1 : (W - 1) / 2 = h := by omega
  have e2 : W / 2 = h := by omega
  refine ⟨by rw [length_rollingMeanO, List.length_map], by omega, ?_, ?_⟩
  · intro i hi
    rw [rollingMeanO_getD W xs i hi (by omega), e1, e2]
  · intro i hi
    rw [rollingMeanO_getD W xs i hi (by omega), e1, e2]
    by_cases hcond : h ≤ i ∧ i + h < xs.length
    · rw [if_pos hcond]
      simp only [reduceCtorEq, false_iff]
      omega
    · rw [if_neg hcond]
      simp only [true_iff]
      omega

/-- Witness for `smooth_centered_mean`: the week of raw counts from the
spec's test scenario, window 7; the single fully covered position holds the
mean `100 / 7`. -/
theorem smooth_centered_mean_witness :
    (rollingMeanO 7 (([10, 12, 9, 15, 20, 18, 16] : List ℚ).map some)).getD 3 none
      = some (100 / 7) := by
  have H := smooth_centered_mean 7 3 ([10, 12, 9, 15, 20, 18, 16] : List ℚ) rfl
    (by decide)
  rw [H.2.2.1 3 (by decide)]
  decide

/-- C9 counterexample: an even window does not fail — there is no
`InvalidWindow` error anywhere in the code — and the rolling mean produces
a smoothed series with defined values (window 4 over five points; pandas
centers the even window with the extra element on the left). -/
theorem smooth_even_window_cex :
    rollingMeanO 4 (([1, 2, 3, 4, 5] : List ℚ).map some)
      = [none, none, some (5 / 2), some (7 / 2), none] := by
  decide

/-- C9 (amended): smoothing succeeds for every positive window, even ones
included; for an even window `W = 2 * m` the value at position `i` is the
mean over the asymmetric closed window of positions `[i - m, i + (m - 1)]`
— the extra element on the left, pandas centering with offset
`(W - 1) / 2` — when it lies inside the data, and undefined otherwise.
No `InvalidWindow` failure exists. -/
theorem smooth_even_window (W m : ℕ) (xs : List ℚ) (hW : W = 2 * m)
    (hm : 0 < m) (i : ℕ) (hi : i < xs.length) :
    (rollingMeanO W (xs.map some)).getD i none =
      if m ≤ i ∧ i + (m - 1) < xs.length then
        some ((((xs.drop (i - m)).take W).sum) / (W : ℚ))
      else none := by
  have e1 : (W - 1) / 2 = m - 1 := by omega
  have e2 : W / 2 = m := by omega
  rw [rollingMeanO_getD W xs i hi (by omega), e1, e2]

/-- Witness for `smooth_even_window` at window 4, position 2. -/
theorem smooth_even_window_witness :
    (rollingMeanO 4 (([1, 2, 3, 4, 5] : List ℚ).map some)).getD 2 none
      = if 2 ≤ 2 ∧ 2 + (2 - 1) < ([1, 2, 3, 4, 5] : List ℚ).length then
          some (((([1, 2, 3, 4, 5] : List ℚ).drop (2 - 2)).take 4).sum / (4 : ℚ))
        else none :=
  smooth_even_window 4 2 ([1, 2, 3, 4, 5] : List ℚ) rfl (by decide) 2 (by decide)

/-- C5: the effective reproduction number is
`exp (b * MEAN_GENERATION_INTERVAL)` with the named constant
`MEAN_GENERATION_INTERVAL = (LATENCY_DAYS - 1) + INFECTIOUS_DAYS / 4`, and
it is strictly increasing in the growth rate `b`. -/
theorem Restimate_mono (b1 b2 : ℝ) (h : b1 < b2) :
    MEAN_GENERATION_INTERVAL = (LATENCY_DAYS - 1) + INFECTIOUS_DAYS / 4 ∧
    Restimate b1 < Restimate b2 := by
  refine ⟨rfl, ?_⟩
  have hM : (0 : ℝ) < (MEAN_GENERATION_INTERVAL : ℝ) := by
    norm_num [MEAN_GENERATION_INTERVAL, LATENCY_DAYS, INFECTIOUS_DAYS]
  exact Real.exp_lt_exp.mpr (mul_lt_mul_of_pos_right h hM)

/-- Witness for `Restimate_mono` at the growth rates 0 and 1. -/
theorem Restimate_mono_witness :
    MEAN_GENERATION_INTERVAL = (LATENCY_DAYS - 1) + INFECTIOUS_DAYS / 4 ∧
    Restimate 0 < Restimate 1 :=
  Restimate_mono 0 1 (by norm_num)

/-- C2: every point handed to the curve fit of metric `f` lies in the closed
window from `fit_start f = HUMP_DAY + offset f` (the hump day plus the
metric's lag) to the stability cutoff `last date - UNSTABLE_DAYS`; its
abscissa `t` is the whole-day distance from the start date, and its ordinate
is the metric's rolling value at that date — the fit window lies inside the
stable region, where the stable column carries the rolling values. -/
theorem fit_window_stable (df : Frame) (f : Field) (t : ℤ) (y : Option ℚ)
    (hmem : (t, y) ∈ fit_xy (addDerived df) f) :
    0 ≤ t ∧ fit_start f + t ≤ cutoffDate df.dates ∧
    ∃ i, i < df.dates.length ∧ df.dates.getD i 0 = fit_start f + t ∧
      y = ((addDerived df).data f Col.roll).getD i none := by
  unfold fit_xy at hmem
  rcases List.mem_filterMap.mp hmem with ⟨i, hir, heq⟩
  rw [List.mem_range, addDerived_dates] at hir
  by_cases hcond : fit_start f ≤ (addDerived df).dates.getD i 0 ∧
      (addDerived df).dates.getD i 0 ≤ cutoffDate (addDerived df).dates
  · rw [if_pos hcond] at heq
    have hpair := Option.some.inj heq
    have ht : (addDerived df).dates.getD i 0 - fit_start f = t :=
      congrArg Prod.fst hpair
    have hy : ((addDerived df).data f Col.stable).getD i none = y :=
      congrArg Prod.snd hpair
    rw [addDerived_dates] at ht hcond
    refine ⟨by omega, by omega, i, hir, by omega, ?_⟩
    rw [← hy, addDerived_stable, addDerived_roll, getD_maskLE _ _ _ _ hir,
      if_pos hcond.2]
  · rw [if_neg hcond] at heq
    exact absurd heq (by simp)

/-- Witness for `fit_window_stable`: on the sample fortnight the single fit
input is the point `(0, some 7)` taken at the cutoff date itself. -/
theorem fit_window_stable_witness :
    (0 : ℤ) ≤ 0 ∧ fit_start Field.pos + 0 ≤ cutoffDate (ingest sampleRecs).dates ∧
    ∃ i, i < (ingest sampleRecs).dates.length ∧
      (ingest sampleRecs).dates.getD i 0 = fit_start Field.pos + 0 ∧
      some 7 = ((addDerived (ingest sampleRecs)).data Field.pos Col.roll).getD i none :=
  fit_window_stable (ingest sampleRecs) Field.pos 0 (some 7) (by decide)

/-- C3 counterexample: the split is not disjoint.  On the sample fortnight
the cutoff date is the fourth index entry and its rolling value `7` appears
in BOTH the stable and the unstable column; moreover the point observed at
the cutoff date is among the points handed to the curve fit, so values at
the cutoff are not excluded from fitting. -/
theorem stable_unstable_split_cex :
    (ingest sampleRecs).dates.getD 3 0 = cutoffDate (ingest sampleRecs).dates ∧
    ((addDerived (ingest sampleRecs)).data Field.pos Col.stable).getD 3 none = some 7 ∧
    ((addDerived (ingest sampleRecs)).data Field.pos Col.unstable).getD 3 none = some 7 ∧
    (0, some 7) ∈ fit_xy (addDerived (ingest sampleRecs)) Field.pos := by
  refine ⟨by decide, by decide, by decide, by decide⟩

/-- C3 (amended): the rolling values are split at the cutoff date
`last date - UNSTABLE_DAYS`, but with both slices inclusive: a value
strictly before the cutoff appears only in the stable column, a value
strictly after only in the unstable column, and the value at the cutoff
date itself appears in both columns (and is also used by the fit, whose
window extends up to the cutoff inclusive). -/
theorem stable_unstable_split (df : Frame) (f : Field) (i : ℕ)
    (hi : i < df.dates.length) :
    (df.dates.getD i 0 < cutoffDate df.dates →
      ((addDerived df).data f Col.stable).getD i none
          = ((addDerived df).data f Col.roll).getD i none ∧
      ((addDerived df).data f Col.unstable).getD i none = none) ∧
    (cutoffDate df.dates < df.dates.getD i 0 →
      ((addDerived df).data f Col.stable).getD i none = none ∧
      ((addDerived df).data f Col.unstable).getD i none
          = ((addDerived df).data f Col.roll).getD i none) ∧
    (df.dates.getD i 0 = cutoffDate df.dates →
      ((addDerived df).data f Col.stable).getD i none
          = ((addDerived df).data f Col.roll).getD i none ∧
      ((addDerived df).data f Col.unstable).getD i none
          = ((addDerived df).data f Col.roll).getD i none) := by
  rw [addDerived_stable, addDerived_unstable, addDerived_roll,
    getD_maskLE _ _ _ _ hi, getD_maskGE _ _ _ _ hi]
  refine ⟨fun h => ⟨?_, ?_⟩, fun h => ⟨?_, ?_⟩, fun h => ⟨?_, ?_⟩⟩
  · rw [if_pos (le_of_lt h)]
  · rw [if_neg (by omega)]
  · rw [if_neg (by omega)]
  · rw [if_pos (le_of_lt h)]
  · rw [if_pos (le_of_eq h)]
  · rw [if_pos (ge_of_eq h)]

/-- Witness for `stable_unstable_split` at index 2 of the sample fortnight
(a date strictly before the cutoff). -/
theorem stable_unstable_split_witness :
    ((ingest sampleRecs).dates.getD 2 0 < cutoffDate (ingest sampleRecs).dates →
      ((addDerived (ingest sampleRecs)).data Field.pos Col.stable).getD 2 none
          = ((addDerived (ingest sampleRecs)).data Field.pos Col.roll).getD 2 none ∧
      ((addDerived (ingest sampleRecs)).data Field.pos Col.unstable).getD 2 none = none) ∧
    (cutoffDate (ingest sampleRecs).dates < (ingest sampleRecs).dates.getD 2 0 →
      ((addDerived (ingest sampleRecs)).data Field.pos Col.stable).getD 2 none = none ∧
      ((addDerived (ingest sampleRecs)).data Field.pos Col.unstable).getD 2 none
          = ((addDerived (ingest sampleRecs)).data Field.pos Col.roll).getD 2 none) ∧
    ((ingest sampleRecs).dates.getD 2 0 = cutoffDate (ingest sampleRecs).dates →
      ((addDerived (ingest sampleRecs)).data Field.pos Col.stable).getD 2 none
          = ((addDerived (ingest sampleRecs)).data Field.pos Col.roll).getD 2 none ∧
      ((addDerived (ingest sampleRecs)).data Field.pos Col.unstable).getD 2 none
          = ((addDerived (ingest sampleRecs)).data Field.pos Col.roll).getD 2 none) :=
  stable_unstable_split (ingest sampleRecs) Field.pos 2 (by decide)

/-- C4 counterexample: the round trip does not reproduce the series at
every date.  With peak 2 and lag 1, the series `[1, 2]` round-trips to
`[undefined, 2]`: the value observed on the first date is lost, because its
relabeled date falls before the start of the index. -/
theorem align_roundtrip_cex :
    (mulCol (shiftDown 1 (align [some (1 : ℚ), some 2] (some 2) 1)) (some 2)).getD 0 none
      ≠ ([some (1 : ℚ), some 2]).getD 0 none := by
  decide

/-- C4 (amended): for a series with a defined nonzero peak `m` and lag `k`,
applying `align` (divide by the peak, relabel day `d` to day `d - k`) and
then re-scaling by `m` and shifting forward by `k` reproduces the original
values exactly at every index position from `k` onward; the first `k`
positions come back undefined, since their values were discarded by the
backward shift. -/
theorem align_roundtrip (xs : List (Option ℚ)) (m : ℚ) (k : ℕ) (i : ℕ)
    (hm : m ≠ 0) (hi : i < xs.length) :
    (mulCol (shiftDown k (align xs (some m) k)) (some m)).getD i none =
      if i < k then none else xs.getD i none := by
  rw [getD_mulCol, getD_shiftDown _ _ _ (by rw [length_align]; exact hi)]
  by_cases hik : i < k
  · simp only [if_pos hik]
  · simp only [if_neg hik]
    rw [align, getD_shiftUp]
    have hik2 : i - k + k = i := by omega
    rw [hik2, if_pos (show i < (divCol xs (some m)).length by
        rw [length_divCol]; exact hi),
      getD_divCol]
    cases hx : xs.getD i none with
    | none => rfl
    | some w =>
        simp only [if_neg hm]
        show some (w / m * m) = some w
        rw [div_mul_cancel₀ w hm]

/-- Witness for `align_roundtrip`: peak 2, lag 1, position 1 of `[1, 2]`. -/
theorem align_roundtrip_witness :
    (mulCol (shiftDown 1 (align [some (1 : ℚ), some 2] (some 2) 1)) (some 2)).getD 1 none
      = if 1 < 1 then none else ([some (1 : ℚ), some 2]).getD 1 none :=
  align_roundtrip [some 1, some 2] 2 1 1 (by norm_num) (by decide)

/-- C8 counterexample: a zero peak does not make `align` fail — there is no
`DegenerateSeries` error anywhere in the code.  On the all-zero series the
peak is `0` and `align` returns an ordinary series (all of whose entries
are undefined, `0.0 / 0.0` being `NaN`), not an error. -/
theorem align_degenerate_cex :
    peakO [some (0 : ℚ), some 0] = some 0 ∧
    align [some (0 : ℚ), some 0] (peakO [some (0 : ℚ), some 0]) 1 = [none, none] := by
  refine ⟨by decide, by decide⟩

/-- C8 (amended): with a zero or undefined peak, `align` does not fail; it
returns a series whose every entry is undefined.  The zero-peak disjunct
carries the hypothesis — true for the non-negative counts at hand — that
every defined value is itself zero, the regime in which the embedding's
division convention agrees with IEEE `0.0 / 0.0 = NaN`. -/
theorem align_degenerate (xs : List (Option ℚ)) (p : Option ℚ) (k i : ℕ)
    (hp : p = none ∨ (p = some 0 ∧ ∀ v : ℚ, some v ∈ xs → v = 0)) :
    (align xs p k).getD i none = none := by
  have hdiv : ∀ j, (divCol xs p).getD j none = none := by
    intro j
    rw [getD_divCol]
    rcases hp with hp | ⟨hp, -⟩ <;> subst hp <;> cases xs.getD j none <;> simp
  rw [align, getD_shiftUp]
  split
  · exact hdiv _
  · rfl

/-- Witness for `align_degenerate` on the all-zero two-day series. -/
theorem align_degenerate_witness :
    (align [some (0 : ℚ), some 0] (some 0) 1).getD 0 none = none :=
  align_degenerate [some 0, some 0] (some 0) 1 0
    (Or.inr ⟨rfl, by intro v hv; simp at hv; exact hv⟩)

/-- C6 counterexample: ingesting two records carrying the same date keeps
BOTH entries — the date occurs twice in the index and the earlier record's
values are still present — instead of keeping only the later record. -/
theorem ingest_dup_cex :
    (ingest [⟨0, 1, 1, 1⟩, ⟨0, 2, 2, 2⟩]).dates = [0, 0] ∧
    (ingest [⟨0, 1, 1, 1⟩, ⟨0, 2, 2, 2⟩]).data Field.pos Col.raw
      = [some 1, some 2] := by
  refine ⟨by decide, by decide⟩

/-- C6 (amended): ingestion keeps every record, in input order, even when a
date appears in two records: the date then occurs as many times in the index
as in the input, and each row still carries its own record's values; no
record is dropped and no last-write-wins deduplication occurs. -/
theorem ingest_keeps_all (recs : List Rec) (d : ℤ) (f : Field) (i : ℕ)
    (hi : i < recs.length) :
    ((ingest recs).dates.countP (fun x => x == d))
        = recs.countP (fun r => r.date == d) ∧
    ((ingest recs).data f Col.raw).getD i none
        = some (rawValue f (recs.getD i ⟨0, 0, 0, 0⟩)) := by
  constructor
  · show (recs.map (fun r => r.date)).countP (fun x => x == d) = _
    rw [List.countP_map]
    rfl
  · show (recs.map (fun r => some (rawValue f r))).getD i none = _
    rw [List.getD_eq_getElem?_getD, List.getElem?_map, List.getElem?_eq_getElem hi,
      List.getD_eq_getElem?_getD, List.getElem?_eq_getElem hi]
    rfl

/-- Witness for `ingest_keeps_all` on the duplicate-date pair, at date 0 and
row 0. -/
theorem ingest_keeps_all_witness :
    ((ingest [⟨0, 1, 1, 1⟩, ⟨0, 2, 2, 2⟩]).dates.countP (fun x => x == 0))
        = ([⟨0, 1, 1, 1⟩, ⟨0, 2, 2, 2⟩] : List Rec).countP (fun r => r.date == 0) ∧
    ((ingest [⟨0, 1, 1, 1⟩, ⟨0, 2, 2, 2⟩]).data Field.pos Col.raw).getD 0 none
        = some (rawValue Field.pos
            (([⟨0, 1, 1, 1⟩, ⟨0, 2, 2, 2⟩] : List Rec).getD 0 ⟨0, 0, 0, 0⟩)) :=
  ingest_keeps_all [⟨0, 1, 1, 1⟩, ⟨0, 2, 2, 2⟩] 0 Field.pos 0 (by decide)

/-- C7 counterexample: the overlay stage is NOT change-free on previously
computed derived columns — it overwrites the stable column in place.  On
the sample fortnight the stable value at position 3 is `7` after the
derivation stage and undefined after the overlay stage. -/
theorem overlay_mutates_cex :
    ((overlayStage (addDerived (ingest sampleRecs))).data Field.pos Col.stable).getD 3 none
      ≠ ((addDerived (ingest sampleRecs)).data Field.pos Col.stable).getD 3 none := by
  decide

/-- C7 (amended): each pipeline stage is a pure transformation that leaves
the date index untouched and writes only its own target columns — the
derivation stage writes only the derived `roll`/`stable`/`unstable`
columns, a fit writes only its own metric's `fit` column, and an overlay
step writes only its own metric's `stable` and `unstable` columns; in
particular no stage ever writes to another metric's columns.  The original
claim fails only in that the overlay stage overwrites its own metric's
previously computed `stable`/`unstable` columns (see the
counterexample). -/
theorem stages_frame (df : Frame) (fld : Field) (s : ℤ) (g : ℤ → ℚ) (k : ℕ)
    (f : Field) (c : Col) :
    (addDerived df).dates = df.dates ∧
    (fit_write df fld s g).dates = df.dates ∧
    (overlayStep df fld k).dates = df.dates ∧
    ((c = Col.raw ∨ c = Col.fit) → (addDerived df).data f c = df.data f c) ∧
    ((f ≠ fld ∨ c ≠ Col.fit) → (fit_write df fld s g).data f c = df.data f c) ∧
    ((f ≠ fld ∨ (c ≠ Col.stable ∧ c ≠ Col.unstable)) →
      (overlayStep df fld k).data f c = df.data f c) := by
  refine ⟨rfl, rfl, rfl, ?_, fit_write_data_ne df fld s g f c,
    overlayStep_data_ne df fld k f c⟩
  rintro (rfl | rfl)
  · exact addDerived_raw df f
  · exact addDerived_fit df f

/-- Witness for `stages_frame`: the overlay step for the positive-tests
metric leaves the ICU metric's stable column unchanged. -/
theorem stages_frame_witness :
    (overlayStep (ingest sampleRecs) Field.pos 7).data Field.icu Col.stable
      = (ingest sampleRecs).data Field.icu Col.stable :=
  (stages_frame (ingest sampleRecs) Field.pos 0 (fun _ => 0) 7 Field.icu
    Col.stable).2.2.2.2.2 (Or.inl (by decide))

/-- C10: the alignment shift does not extend the date index; each output
position `i` of a shifted stable or unstable column takes the normalized
value of position `i + offset f`, so the values observed on the first
`offset f` dates appear at no output position (their relabeled dates fall
before the index start), and the entries at the last `offset f` positions
are undefined after alignment. -/
theorem shift_discards (df : Frame) (f : Field) (c : Col) (i : ℕ)
    (hc : c = Col.stable ∨ c = Col.unstable) :
    (overlayStage df).dates = df.dates ∧
    ((overlayStage df).data f c).length = (df.data f c).length ∧
    ((df.data f c).length ≤ i + offset f →
      ((overlayStage df).data f c).getD i none = none) ∧
    (i + offset f < (df.data f c).length →
      ((overlayStage df).data f c).getD i none
        = (divCol (df.data f c) (peakO (df.data f Col.roll))).getD (i + offset f) none) := by
  rw [overlayStage_data df f c hc]
  refine ⟨rfl, by rw [length_align], ?_, ?_⟩
  · intro h
    rw [align, getD_shiftUp, if_neg (by rw [length_divCol]; omega)]
  · intro h
    rw [align, getD_shiftUp, if_pos (by rw [length_divCol]; omega)]

/-- Witness for `shift_discards` at the last position of the sample
fortnight's stable column for the positive-tests metric (lag 7). -/
theorem shift_discards_witness :
    (overlayStage (addDerived (ingest sampleRecs))).dates
        = (addDerived (ingest sampleRecs)).dates ∧
    ((overlayStage (addDerived (ingest sampleRecs))).data Field.pos Col.stable).length
        = ((addDerived (ingest sampleRecs)).data Field.pos Col.stable).length ∧
    (((addDerived (ingest sampleRecs)).data Field.pos Col.stable).length
        ≤ 13 + offset Field.pos →
      ((overlayStage (addDerived (ingest sampleRecs))).data Field.pos Col.stable).getD 13 none
        = none) ∧
    (13 + offset Field.pos
        < ((addDerived (ingest sampleRecs)).data Field.pos Col.stable).length →
      ((overlayStage (addDerived (ingest sampleRecs))).data Field.pos Col.stable).getD 13 none
        = (divCol ((addDerived (ingest sampleRecs)).data Field.pos Col.stable)
            (peakO ((addDerived (ingest sampleRecs)).data Field.pos Col.roll))).getD
            (13 + offset Field.pos) none) :=
  shift_discards (addDerived (ingest sampleRecs)) Field.pos Col.stable 13
    (Or.inl rfl)

end Covid
